import Mathlib

/-!
Verification development for the dpkt-gtpc repository.

Byte strings are modelled as `List Nat` (one entry per octet, values below
256 on real input).  Python exceptions are modelled by `Except`: the
constructors of `CodecErr` name the exception classes the source raises.
Mutable objects are modelled by explicit state passing: a method that
mutates `self` becomes a function returning the new state.
-/

set_option maxRecDepth 4000

namespace DpktGtpc

/-- Exception classes raised by the codecs.  `needData` is `dpkt.NeedData`;
`badPointer`, `nameTooLong`, `badLabel` and `unsupported` are the
`dpkt.UnpackError` (resp. `dpkt.PackError`) raised at the corresponding
points of the source; `structError` is Python `struct.error` (value out of
range or short fixed-size read); `typeError`, `indexError`, `attrError`
and `valueError` are the builtin Python exceptions of those names. -/
inductive CodecErr where
  | needData
  | badPointer
  | nameTooLong
  | badLabel
  | unsupported
  | truncated
  | structError
  | typeError
  | indexError
  | attrError
  | valueError
  deriving DecidableEq, Repr

/-! ## DNS name decompression (src/dpkt/dns.py, `unpack_name`) -/

/-- The while-loop of `unpack_name` (dns.py lines 97-120).  Arguments mirror
the Python locals: `off` is the cursor, `startOff` the offset the current
segment started at (re-assigned to the target at every pointer jump),
`savedOff` the saved post-pointer return offset (0 while unset), `nameLength`
the accumulated decoded length, `acc` the labels collected so far (in
reverse).  The loop terminates because every pointer jump strictly decreases
`startOff` and every label strictly advances `off` inside the buffer. -/
def unpackNameGo (buf : List Nat) (off startOff savedOff nameLength : Nat)
    (acc : List (List Nat)) : Except CodecErr (List (List Nat) × Nat) :=
  if hend : off ≥ buf.length then .error .needData
  else
    if buf.getD off 0 = 0 then
      .ok (acc.reverse, if savedOff = 0 then off + 1 else savedOff)
    else if buf.getD off 0 &&& 0xc0 = 0xc0 then
      if off + 1 < buf.length then
        if (buf.getD off 0 * 256 + buf.getD (off + 1) 0) &&& 0x3fff ≥ startOff then
          .error .badPointer
        else
          unpackNameGo buf ((buf.getD off 0 * 256 + buf.getD (off + 1) 0) &&& 0x3fff)
            ((buf.getD off 0 * 256 + buf.getD (off + 1) 0) &&& 0x3fff)
            (if savedOff = 0 then off + 2 else savedOff) nameLength acc
      else .error .structError
    else if buf.getD off 0 &&& 0xc0 = 0 then
      if nameLength + buf.getD off 0 + 1 > 255 then .error .nameTooLong
      else
        unpackNameGo buf (off + 1 + buf.getD off 0) startOff savedOff
          (nameLength + buf.getD off 0 + 1)
          (((buf.drop (off + 1)).take (buf.getD off 0)) :: acc)
    else .error .badLabel
termination_by (startOff, buf.length - off)
decreasing_by
  · apply Prod.Lex.left; omega
  · apply Prod.Lex.right' <;> omega

/-- `unpack_name(buf, off)` (dns.py lines 92-123).  The Python function
returns the dot-joined name; we return the decoded label list (the joined
name is a pure function of it) together with the returned offset. -/
def unpack_name (buf : List Nat) (off : Nat) :
    Except CodecErr (List (List Nat) × Nat) :=
  unpackNameGo buf off off 0 0 []

/-- Accumulated decoded length of a label list: one length octet plus the
label bytes per label, exactly what `name_length` accumulates in the loop. -/
def nameLen (ls : List (List Nat)) : Nat :=
  (ls.map (fun l => l.length + 1)).sum

/-- Wire form of a pointer-free DNS name: each label preceded by its length
octet, closed by a zero terminator octet. -/
def wireName (ls : List (List Nat)) : List Nat :=
  (ls.map (fun l => l.length :: l)).flatten ++ [0]

theorem nameLen_nil : nameLen [] = 0 := rfl

theorem nameLen_cons (l : List Nat) (ls : List (List Nat)) :
    nameLen (l :: ls) = l.length + 1 + nameLen ls := by
  simp [nameLen]

theorem nameLen_reverse (ls : List (List Nat)) :
    nameLen ls.reverse = nameLen ls := by
  simp [nameLen, List.map_reverse, List.sum_reverse]

/-- Claim C1: whenever the length/type octet at the starting offset of a DNS
name is a compression pointer (top two bits `11`) whose 14-bit target is at
least the name's own starting offset, `unpack_name` fails with the decode
error `'Invalid label compression pointer'` — it neither loops nor returns a
name.  (Termination for every input is additionally built into the
definition of `unpackNameGo`, whose recursion is well founded.) -/
theorem unpack_name_pointer_guard (buf : List Nat) (off : Nat)
    (hoff2 : off + 1 < buf.length)
    (hmrk : buf.getD off 0 &&& 0xc0 = 0xc0)
    (htgt : (buf.getD off 0 * 256 + buf.getD (off + 1) 0) &&& 0x3fff ≥ off) :
    unpack_name buf off = .error .badPointer := by
  have hn0 : ¬ buf.getD off 0 = 0 := by
    intro h
    rw [h] at hmrk
    simp at hmrk
  unfold unpack_name
  rw [unpackNameGo]
  rw [dif_neg (by omega)]
  simp only [hn0, if_false, hmrk, if_true, if_pos hoff2, if_pos htgt]

/-- Witness for C1: the two-byte buffer `c0 00` is a compression pointer at
offset 0 whose target is offset 0 (the self-referential pointer of the
spec's safety property); `unpack_name` rejects it with a decode error. -/
theorem unpack_name_pointer_guard_witness :
    (0 + 1 < 2 ∧ (192 : Nat) &&& 0xc0 = 0xc0 ∧
      ((192 : Nat) * 256 + 0) &&& 0x3fff ≥ 0) ∧
    unpack_name [0xc0, 0x00] 0 = .error .badPointer :=
  ⟨⟨by decide, by decide, by decide⟩,
    unpack_name_pointer_guard [0xc0, 0x00] 0 (by decide) (by decide) (by decide)⟩

/-- Soundness of the 255-byte cap: whenever the loop returns a name, the
accumulated decoded length (length octet plus content per label) is at most
255, because the loop errors as soon as `name_length` would exceed 255. -/
theorem unpackNameGo_ok_cap (buf : List Nat) (off startOff savedOff nameLength : Nat)
    (acc : List (List Nat)) :
    ∀ ls so, nameLen acc ≤ nameLength → nameLength ≤ 255 →
      unpackNameGo buf off startOff savedOff nameLength acc = .ok (ls, so) →
      nameLen ls ≤ 255 := by
  induction off, startOff, savedOff, nameLength, acc using unpackNameGo.induct buf with
  | case1 off startOff savedOff nameLength acc hend =>
    intro ls so hsum hcap h
    rw [unpackNameGo, dif_pos hend] at h
    simp at h
  | case2 off startOff savedOff nameLength acc hend hz =>
    intro ls so hsum hcap h
    rw [unpackNameGo, dif_neg hend, if_pos hz] at h
    rw [Except.ok.injEq, Prod.mk.injEq] at h
    obtain ⟨hls, -⟩ := h
    subst hls
    calc nameLen acc.reverse = nameLen acc := nameLen_reverse acc
    _ ≤ nameLength := hsum
    _ ≤ 255 := hcap
  | case3 off startOff savedOff nameLength acc hend hz hmrk hin htgt =>
    intro ls so hsum hcap h
    rw [unpackNameGo, dif_neg hend, if_neg hz, if_pos hmrk, if_pos hin,
      if_pos htgt] at h
    simp at h
  | case4 off startOff savedOff nameLength acc hend hz hmrk hin htgt ih =>
    intro ls so hsum hcap h
    rw [unpackNameGo, dif_neg hend, if_neg hz, if_pos hmrk, if_pos hin,
      if_neg htgt] at h
    exact ih ls so hsum hcap h
  | case5 off startOff savedOff nameLength acc hend hz hmrk hin =>
    intro ls so hsum hcap h
    rw [unpackNameGo, dif_neg hend, if_neg hz, if_pos hmrk, if_neg hin] at h
    simp at h
  | case6 off startOff savedOff nameLength acc hend hz hmrk hlab hcap' =>
    intro ls so hsum hcap h
    rw [unpackNameGo, dif_neg hend, if_neg hz, if_neg hmrk, if_pos hlab,
      if_pos hcap'] at h
    simp at h
  | case7 off startOff savedOff nameLength acc hend hz hmrk hlab hcap' ih =>
    intro ls so hsum hcap h
    rw [unpackNameGo, dif_neg hend, if_neg hz, if_neg hmrk, if_pos hlab,
      if_neg hcap'] at h
    refine ih ls so ?_ (by omega) h
    rw [nameLen_cons]
    have htk : ((buf.drop (off + 1)).take (buf.getD off 0)).length ≤ buf.getD off 0 := by
      simp [List.length_take]
    omega
  | case8 off startOff savedOff nameLength acc hend hz hmrk hlab =>
    intro ls so hsum hcap h
    rw [unpackNameGo, dif_neg hend, if_neg hz, if_neg hmrk, if_neg hlab] at h
    simp at h

/-- Completeness of the cap: a pointer-free wire name whose labels have
lengths 1..63 and whose accumulated length stays within the running total's
budget of 255 is decoded in full, label for label. -/
theorem unpackNameGo_wire (names : List (List Nat)) :
    ∀ (pre : List Nat) (startOff savedOff nameLength : Nat) (acc : List (List Nat)),
      (∀ l ∈ names, 1 ≤ l.length ∧ l.length ≤ 63) →
      nameLength + nameLen names ≤ 255 →
      unpackNameGo (pre ++ wireName names) pre.length startOff savedOff nameLength acc =
        .ok (acc.reverse ++ names,
          if savedOff = 0 then pre.length + nameLen names + 1 else savedOff) := by
  induction names with
  | nil =>
    intro pre startOff savedOff nameLength acc _ _
    have hg : (pre ++ wireName []).getD pre.length 0 = 0 := by
      rw [List.getD_append_right _ _ _ _ (le_refl _)]
      simp [wireName]
    rw [unpackNameGo, dif_neg (by simp [wireName]), hg, if_pos rfl]
    simp [nameLen]
  | cons l rest ih =>
    intro pre startOff savedOff nameLength acc hlab hbud
    have hl1 : 1 ≤ l.length := (hlab l (List.mem_cons_self l rest)).1
    have hl63 : l.length ≤ 63 := (hlab l (List.mem_cons_self l rest)).2
    have hw : wireName (l :: rest) = l.length :: (l ++ wireName rest) := by
      simp [wireName]
    have hbuf : pre ++ wireName (l :: rest) =
        (pre ++ l.length :: l) ++ wireName rest := by
      rw [hw]; simp
    have hg : (pre ++ wireName (l :: rest)).getD pre.length 0 = l.length := by
      rw [List.getD_append_right _ _ _ _ (le_refl _)]
      simp [hw]
    have hsmall : ∀ m : Nat, m < 64 → m &&& 0xc0 = 0 := by decide
    have hand : l.length &&& 0xc0 = 0 := hsmall l.length (by omega)
    rw [unpackNameGo]
    rw [dif_neg (by simp [hw])]
    rw [hg]
    rw [if_neg (by omega), if_neg (by rw [hand]; omega), if_pos hand,
      if_neg (by rw [nameLen_cons] at hbud; omega)]
    have hdrop : (pre ++ wireName (l :: rest)).drop (pre.length + 1) =
        l ++ wireName rest := by
      have : pre ++ wireName (l :: rest) = (pre ++ [l.length]) ++ (l ++ wireName rest) := by
        rw [hw]; simp
      rw [this]
      have hlen : pre.length + 1 = (pre ++ [l.length]).length := by simp
      rw [hlen, List.drop_left]
    rw [hdrop, List.take_left]
    have hoff : pre.length + 1 + l.length = (pre ++ l.length :: l).length := by
      simp; omega
    rw [hbuf, hoff, ih (pre ++ l.length :: l) startOff savedOff (nameLength + l.length + 1)
      (l :: acc) (fun x hx => hlab x (List.mem_cons_of_mem l hx))
      (by rw [nameLen_cons] at hbud; omega)]
    rw [nameLen_cons]
    by_cases hs : savedOff = 0
    · simp [hs]; omega
    · simp [hs]

/-- A pointer-free wire name whose accumulated decoded length overruns the
remaining budget of 255 is rejected with the name-too-long decode error at
the crossing label. -/
theorem unpackNameGo_wire_over (names : List (List Nat)) :
    ∀ (pre : List Nat) (startOff savedOff nameLength : Nat) (acc : List (List Nat)),
      (∀ l ∈ names, 1 ≤ l.length ∧ l.length ≤ 63) →
      nameLength ≤ 255 → 255 < nameLength + nameLen names →
      unpackNameGo (pre ++ wireName names) pre.length startOff savedOff nameLength acc =
        .error .nameTooLong := by
  induction names with
  | nil =>
    intro pre startOff savedOff nameLength acc _ hnl hover
    rw [nameLen_nil] at hover
    omega
  | cons l rest ih =>
    intro pre startOff savedOff nameLength acc hlab hnl hover
    have hl1 : 1 ≤ l.length := (hlab l (List.mem_cons_self l rest)).1
    have hl63 : l.length ≤ 63 := (hlab l (List.mem_cons_self l rest)).2
    have hw : wireName (l :: rest) = l.length :: (l ++ wireName rest) := by
      simp [wireName]
    have hbuf : pre ++ wireName (l :: rest) =
        (pre ++ l.length :: l) ++ wireName rest := by
      rw [hw]; simp
    have hg : (pre ++ wireName (l :: rest)).getD pre.length 0 = l.length := by
      rw [List.getD_append_right _ _ _ _ (le_refl _)]
      simp [hw]
    have hsmall : ∀ m : Nat, m < 64 → m &&& 0xc0 = 0 := by decide
    have hand : l.length &&& 0xc0 = 0 := hsmall l.length (by omega)
    rw [unpackNameGo]
    rw [dif_neg (by simp [hw])]
    rw [hg]
    rw [if_neg (by omega), if_neg (by rw [hand]; omega), if_pos hand]
    by_cases hc : nameLength + l.length + 1 > 255
    · rw [if_pos hc]
    · rw [if_neg hc]
      have hdrop : (pre ++ wireName (l :: rest)).drop (pre.length + 1) =
          l ++ wireName rest := by
        have hsplit : pre ++ wireName (l :: rest) =
            (pre ++ [l.length]) ++ (l ++ wireName rest) := by
          rw [hw]; simp
        rw [hsplit]
        have hlen : pre.length + 1 = (pre ++ [l.length]).length := by simp
        rw [hlen, List.drop_left]
      rw [hdrop, List.take_left]
      have hoff : pre.length + 1 + l.length = (pre ++ l.length :: l).length := by
        simp; omega
      rw [hbuf, hoff]
      rw [nameLen_cons] at hover
      exact ih (pre ++ l.length :: l) startOff savedOff (nameLength + l.length + 1)
        (l :: acc) (fun x hx => hlab x (List.mem_cons_of_mem l hx))
        (by omega) (by omega)

/-- Claim C6: decoding a DNS name enforces the 255-byte cap exactly: any
name `unpack_name` returns has accumulated decoded length (length octet
plus content per label) at most 255; a well-formed pointer-free wire name
whose accumulated decoded length is at most 255 is decoded successfully —
it is not rejected by the cap; and one whose accumulated length exceeds 255
fails with the name-too-long decode error. -/
theorem unpack_name_length_cap (buf : List Nat) (off : Nat)
    (ls : List (List Nat)) (so : Nat) (names names2 : List (List Nat))
    (hok : unpack_name buf off = .ok (ls, so))
    (hlab : ∀ l ∈ names, 1 ≤ l.length ∧ l.length ≤ 63)
    (htot : nameLen names ≤ 255)
    (hlab2 : ∀ l ∈ names2, 1 ≤ l.length ∧ l.length ≤ 63)
    (hover : 255 < nameLen names2) :
    nameLen ls ≤ 255 ∧
      unpack_name (wireName names) 0 = .ok (names, nameLen names + 1) ∧
      unpack_name (wireName names2) 0 = .error .nameTooLong := by
  refine ⟨?_, ?_, ?_⟩
  · exact unpackNameGo_ok_cap buf off off 0 0 [] ls so (by simp [nameLen]) (by omega) hok
  · have h := unpackNameGo_wire names [] 0 0 0 [] hlab (by omega)
    simpa [unpack_name] using h
  · have h := unpackNameGo_wire_over names2 [] 0 0 0 [] hlab2 (by omega) (by omega)
    simpa [unpack_name] using h

/-- Witness for C6: the one-byte buffer `00` decodes to the empty name; the
wire name with the single label `ab` (accumulated length 3 ≤ 255) decodes
back to that label; and sixteen 16-byte labels (accumulated length 272)
are rejected as too long, as in the repo's `test_very_long_name`. -/
theorem unpack_name_length_cap_witness :
    (unpack_name [0] 0 = .ok ([], 1) ∧
      (∀ l ∈ [[97, 98]], 1 ≤ l.length ∧ l.length ≤ 63) ∧
      nameLen [[97, 98]] ≤ 255 ∧
      (∀ l ∈ List.replicate 16 (List.replicate 16 (7 : Nat)),
        1 ≤ l.length ∧ l.length ≤ 63) ∧
      255 < nameLen (List.replicate 16 (List.replicate 16 (7 : Nat)))) ∧
    (nameLen ([] : List (List Nat)) ≤ 255 ∧
      unpack_name (wireName [[97, 98]]) 0 = .ok ([[97, 98]], 4) ∧
      unpack_name (wireName (List.replicate 16 (List.replicate 16 (7 : Nat)))) 0 =
        .error .nameTooLong) :=
  ⟨⟨by simp [unpack_name, unpackNameGo], by decide, by decide, by decide, by decide⟩,
    unpack_name_length_cap [0] 0 [] 1 [[97, 98]]
      (List.replicate 16 (List.replicate 16 (7 : Nat)))
      (by simp [unpack_name, unpackNameGo]) (by decide) (by decide)
      (by decide) (by decide)⟩

/-! ## DNS name compression (src/dpkt/dns.py, `pack_name`) -/

/-- `bytes.upper()` on one byte: ASCII lowercase letters are uppercased. -/
def upperByte (b : Nat) : Nat := if 97 ≤ b ∧ b ≤ 122 then b - 32 else b

/-- `name.split(b'.')`: split a byte string on the dot byte (46), keeping
empty pieces. -/
def splitDot (bs : List Nat) : List (List Nat) :=
  bs.foldr
    (fun b acc =>
      if b = 46 then [] :: acc
      else
        match acc with
        | [] => [[b]]
        | h :: t => (b :: h) :: t)
    [[]]

/-- `b'.'.join(ls)`. -/
def joinDot (ls : List (List Nat)) : List Nat := List.intercalate [46] ls

/-- The compression table `label_ptrs`: an uppercased dot-joined suffix key
mapped to the offset it was first written at.  Binding prepends and lookup
takes the most recent binding, which matches Python dict assignment here. -/
abbrev LabelTable := List (List Nat × Nat)

/-- Big-endian 2-byte encoding, Python `struct.pack('>H', n)` for `n < 2^16`
(the callers below check the range first, as `struct.pack` raises on
overflow). -/
def be16 (n : Nat) : List Nat := [n / 256, n % 256]

/-- The suffix loop of `pack_name` (dns.py lines 76-88): one iteration per
label, `off` the compression base offset passed by the caller, `bufLen` the
number of bytes emitted so far (`len(buf)`), `tbl` the table.  Python's
`if not ptr` is true both when the key is absent and when the stored offset
is 0, hence the `Option.getD 0` test. -/
def packNameGo (off : Nat) : List (List Nat) → Nat → LabelTable →
    Except CodecErr (List Nat × LabelTable)
  | [], _, tbl => .ok ([], tbl)
  | label :: rest, bufLen, tbl =>
    let key := (joinDot (label :: rest)).map upperByte
    let ptr := (List.lookup key tbl).getD 0
    if ptr ≠ 0 then
      if 0xc000 ||| ptr < 65536 then .ok (be16 (0xc000 ||| ptr), tbl)
      else .error .structError
    else
      let tbl1 :=
        if 1 < key.length then
          if off + bufLen < 0xc000 then (key, off + bufLen) :: tbl else tbl
        else tbl
      if label.length < 256 then
        match packNameGo off rest (bufLen + 1 + label.length) tbl1 with
        | .ok (restBuf, tbl2) => .ok ((label.length :: label) ++ restBuf, tbl2)
        | .error e => .error e
      else .error .structError

/-- `pack_name(name, off, label_ptrs)` (dns.py lines 68-89); returns the
emitted bytes together with the updated table. -/
def pack_name (name : List Nat) (off : Nat) (tbl : LabelTable) :
    Except CodecErr (List Nat × LabelTable) :=
  packNameGo off ((if name.isEmpty then [] else splitDot name) ++ [[]]) 0 tbl

/-- Claim C3 (refuted by the code): the recording guard in `pack_name` is
`ptr < 0xc000`, not `ptr < 0x4000`.  Packing the name `ab` at base offset
0x4000 with an empty table records the offset 0x4000 — which does not fit
in 14 bits — under the key `AB.`; a later pack of the same name then emits
the pointer word `0xc000 ||| 0x4000 = 0xc000`, whose 14-bit target field is
0, not the recorded 0x4000. -/
theorem pack_name_records_offset_at_0x4000 :
    pack_name [97, 98] 0x4000 [] =
      .ok ([2, 97, 98, 0], [([65, 66, 46], 0x4000)]) ∧
    ¬ (0x4000 < 0x4000) ∧
    pack_name [97, 98] 0 [([65, 66, 46], 0x4000)] =
      .ok ([0xc0, 0x00], [([65, 66, 46], 0x4000)]) ∧
    (0xc0 * 256 + 0x00) &&& 0x3fff ≠ 0x4000 := by
  refine ⟨rfl, by decide, rfl, by decide⟩

/-! ## DNS header flag accessors (src/dpkt/dns.py, lines 146-226) -/

/-- Python `a & ~m` on a nonnegative int: clear the `m`-bits of `a`.
Written as `a ^^^ (a &&& m)`, which is the same function (the bits of
`a &&& m` are a subset of the bits of `a`). -/
def andNot (a m : Nat) : Nat := a ^^^ (a &&& m)

theorem testBit_andNot (a m i : Nat) :
    (andNot a m).testBit i = (a.testBit i && !(m.testBit i)) := by
  unfold andNot
  rw [Nat.testBit_xor, Nat.testBit_and]
  cases a.testBit i <;> cases m.testBit i <;> rfl

theorem or_and_of_disj {a b m : Nat} (h : b &&& m = 0) :
    (a ||| b) &&& m = a &&& m := by
  apply Nat.eq_of_testBit_eq
  intro i
  have hb : (b.testBit i && m.testBit i) = false := by
    rw [← Nat.testBit_and, h, Nat.zero_testBit]
  simp only [Nat.testBit_and, Nat.testBit_or]
  cases hB : b.testBit i <;> cases hM : m.testBit i <;> simp_all
theorem andNot_and_eq {a b m : Nat} (h : b &&& m = 0) :
    andNot a b &&& m = a &&& m := by
  apply Nat.eq_of_testBit_eq
  intro i
  have hb : (b.testBit i && m.testBit i) = false := by
    rw [← Nat.testBit_and, h, Nat.zero_testBit]
  rw [Nat.testBit_and, testBit_andNot, Nat.testBit_and]
  cases hB : b.testBit i <;> cases hM : m.testBit i <;> simp_all

/-- The 4-bit value written by the opcode setter only occupies bits 11-14. -/
theorem nibble_shl11_self (v : Nat) :
    ((v &&& 0xf) <<< 11) &&& 0x7800 = (v &&& 0xf) <<< 11 := by
  apply Nat.eq_of_testBit_eq
  intro i
  rw [show (0x7800 : Nat) = 15 <<< 11 from rfl]
  simp only [Nat.testBit_and, Nat.testBit_shiftLeft]
  cases hd : decide (11 ≤ i) <;> simp

theorem nibble_shl11_and {m : Nat} (v : Nat) (h : 0x7800 &&& m = 0) :
    ((v &&& 0xf) <<< 11) &&& m = 0 := by
  calc ((v &&& 0xf) <<< 11) &&& m
      = (((v &&& 0xf) <<< 11) &&& 0x7800) &&& m := by rw [nibble_shl11_self]
  _ = ((v &&& 0xf) <<< 11) &&& (0x7800 &&& m) := by rw [Nat.and_assoc]
  _ = 0 := by rw [h, Nat.and_zero]

theorem nibble_and {m : Nat} (v : Nat) (h : 0xf &&& m = 0) :
    (v &&& 0xf) &&& m = 0 := by
  rw [Nat.and_assoc, h, Nat.and_zero]

/-- Reading the 4-bit opcode through shift-then-mask is the same as
mask-then-shift; used to track which bits the opcode getter depends on. -/
theorem shiftr11_and (w : Nat) : (w >>> 11) &&& 0xf = (w &&& 0x7800) >>> 11 := by
  apply Nat.eq_of_testBit_eq
  intro i
  rw [show (0x7800 : Nat) = 15 <<< 11 from rfl]
  simp only [Nat.testBit_and, Nat.testBit_shiftRight, Nat.testBit_shiftLeft]
  simp

/-- State of a `DNS` object as far as its flag word is concerned: the 16-bit
`op` header field, plus the plain Python attribute slots `ad` and `cd`
(dns.py defines constants `DNS_AD`/`DNS_CD` but no properties for them, so
reading or writing `ad`/`cd` is ordinary attribute access that never touches
`op`; an attribute that was never assigned reads as `none`). -/
structure DnsHdrState where
  op : Nat
  adAttr : Option Nat
  cdAttr : Option Nat
  deriving DecidableEq, Repr

/-- The flag sub-fields named by the spec, plus `zero` (the Z bit), which is
the accessor the source actually defines in this group. -/
inductive DnsSub where
  | qr | opcode | aa | tc | rd | ra | zero | rcode | ad | cd
  deriving DecidableEq, Repr, Fintype

/-- The bits of `op` a sub-field occupies (0 for the attribute-only
`ad`/`cd`). -/
def subMask : DnsSub → Nat
  | .qr => 0x8000
  | .opcode => 0x7800
  | .aa => 0x400
  | .tc => 0x200
  | .rd => 0x100
  | .ra => 0x80
  | .zero => 0x40
  | .rcode => 0xf
  | .ad => 0
  | .cd => 0

/-- The property getters of dns.py (lines 146-226); `ad`/`cd` are plain
attribute reads. -/
def getSub : DnsSub → DnsHdrState → Option Nat
  | .qr, s => some (if s.op &&& 0x8000 = 0x8000 then 1 else 0)
  | .opcode, s => some ((s.op >>> 11) &&& 0xf)
  | .aa, s => some (if s.op &&& 0x400 = 0x400 then 1 else 0)
  | .tc, s => some (if s.op &&& 0x200 = 0x200 then 1 else 0)
  | .rd, s => some (if s.op &&& 0x100 = 0x100 then 1 else 0)
  | .ra, s => some (if s.op &&& 0x80 = 0x80 then 1 else 0)
  | .zero, s => some (if s.op &&& 0x40 = 0x40 then 1 else 0)
  | .rcode, s => some (s.op &&& 0xf)
  | .ad, s => s.adAttr
  | .cd, s => s.cdAttr

/-- The property setters of dns.py (lines 146-226): boolean flags test the
truthiness of the argument and set or clear their bit; opcode and rcode
mask-and-insert their 4-bit value; `ad`/`cd` are plain attribute writes. -/
def setSub : DnsSub → Nat → DnsHdrState → DnsHdrState
  | .qr, v, s => { s with op := if v ≠ 0 then s.op ||| 0x8000 else andNot s.op 0x8000 }
  | .opcode, v, s => { s with op := andNot s.op 0x7800 ||| ((v &&& 0xf) <<< 11) }
  | .aa, v, s => { s with op := if v ≠ 0 then s.op ||| 0x400 else andNot s.op 0x400 }
  | .tc, v, s => { s with op := if v ≠ 0 then s.op ||| 0x200 else andNot s.op 0x200 }
  | .rd, v, s => { s with op := if v ≠ 0 then s.op ||| 0x100 else andNot s.op 0x100 }
  | .ra, v, s => { s with op := if v ≠ 0 then s.op ||| 0x80 else andNot s.op 0x80 }
  | .zero, v, s => { s with op := if v ≠ 0 then s.op ||| 0x40 else andNot s.op 0x40 }
  | .rcode, v, s => { s with op := andNot s.op 0xf ||| (v &&& 0xf) }
  | .ad, v, s => { s with adAttr := some v }
  | .cd, v, s => { s with cdAttr := some v }

/-- A setter only writes inside its own mask. -/
theorem setSub_op_and (x : DnsSub) (v : Nat) (s : DnsHdrState) (m : Nat)
    (h : subMask x &&& m = 0) : (setSub x v s).op &&& m = s.op &&& m := by
  cases x <;> simp only [setSub, subMask] at h ⊢
  case qr | aa | tc | rd | ra | zero =>
    by_cases hv : v ≠ 0
    · rw [if_pos hv, or_and_of_disj h]
    · rw [if_neg hv, andNot_and_eq h]
  case opcode => rw [or_and_of_disj (nibble_shl11_and v h), andNot_and_eq h]
  case rcode => rw [or_and_of_disj (nibble_and v h), andNot_and_eq h]

/-- A getter only reads its own mask of `op` (and, for `ad`/`cd`, its own
attribute slot). -/
theorem getSub_congr (y : DnsSub) (s t : DnsHdrState)
    (hop : t.op &&& subMask y = s.op &&& subMask y)
    (had : y = .ad → t.adAttr = s.adAttr)
    (hcd : y = .cd → t.cdAttr = s.cdAttr) : getSub y t = getSub y s := by
  cases y <;> simp only [getSub, subMask] at hop ⊢
  case qr | aa | tc | rd | ra | zero | rcode => rw [hop]
  case opcode => rw [shiftr11_and, hop, ← shiftr11_and]
  case ad => exact had rfl
  case cd => exact hcd rfl

theorem setSub_adAttr (x : DnsSub) (v : Nat) (s : DnsHdrState)
    (h : x ≠ .ad) : (setSub x v s).adAttr = s.adAttr := by
  cases x <;> simp_all [setSub]

theorem setSub_cdAttr (x : DnsSub) (v : Nat) (s : DnsHdrState)
    (h : x ≠ .cd) : (setSub x v s).cdAttr = s.cdAttr := by
  cases x <;> simp_all [setSub]

theorem subMask_disjoint (x y : DnsSub) (h : x ≠ y) :
    subMask x &&& subMask y = 0 := by
  revert h
  revert x y
  decide

/-- Claim C7: setting any one of the DNS header sub-fields QR, Opcode, AA,
TC, RD, RA, Z, RCODE, AD, CD leaves the value read from every other
sub-field unchanged; in particular, starting from flags word 0x8180,
setting RD to 0 yields flags word 0x8080 with QR still reading 1.  (For
AD and CD the source defines no property, so setting them is ordinary
Python attribute assignment, which stores outside `op` and so cannot
disturb any other sub-field.) -/
theorem dns_flag_setters_independent (s : DnsHdrState) (x y : DnsSub) (v : Nat)
    (hxy : x ≠ y) :
    getSub y (setSub x v s) = getSub y s ∧
      (setSub .rd 0 ⟨0x8180, none, none⟩).op = 0x8080 ∧
      getSub .qr (setSub .rd 0 ⟨0x8180, none, none⟩) = some 1 := by
  refine ⟨?_, by decide, by decide⟩
  apply getSub_congr
  · exact setSub_op_and x v s (subMask y) (subMask_disjoint x y hxy)
  · intro hy
    exact setSub_adAttr x v s (by rw [hy] at hxy; exact hxy)
  · intro hy
    exact setSub_cdAttr x v s (by rw [hy] at hxy; exact hxy)

/-- Witness for C7: setting RD to 0 on the header word 0x8180 leaves QR (and
the rest) unchanged. -/
theorem dns_flag_setters_independent_witness :
    (DnsSub.rd ≠ DnsSub.qr) ∧
      (getSub .qr (setSub .rd 0 ⟨0x8180, none, none⟩) =
          getSub .qr ⟨0x8180, none, none⟩ ∧
        (setSub .rd 0 ⟨0x8180, none, none⟩).op = 0x8080 ∧
        getSub .qr (setSub .rd 0 ⟨0x8180, none, none⟩) = some 1) :=
  ⟨by decide,
    dns_flag_setters_independent ⟨0x8180, none, none⟩ .rd .qr 0 (by decide)⟩

/-! ## GTP-C information elements (src/dpkt/gtp_c.py) -/

/-- A Python attribute slot that may be unset, hold an int, or hold a byte
string (the GTP header codecs store both shapes in the same attributes). -/
inductive PyVal where
  | none
  | int (n : Nat)
  | bytes (bs : List Nat)
  deriving DecidableEq, Repr

/-- The `data` attribute of a GTP header object: the structured IE list, or
a raw byte string. -/
inductive PyData (ι : Type) where
  | ies (l : List ι)
  | raw (bs : List Nat)
  deriving DecidableEq, Repr

/-- `TV_LEN_DICT` (gtp_c.py lines 139-168): the static type-to-length table
for GTPv1 TV-form IEs, as `Option`-valued lookup (`dict.get`). -/
def TV_LEN_DICT (t : Nat) : Option Nat :=
  if t = 0 then some 0
  else if t = 1 then some 1
  else if t = 2 then some 8
  else if t = 3 then some 6
  else if t = 4 then some 4
  else if t = 5 then some 4
  else if t = 8 then some 1
  else if t = 9 then some 28
  else if t = 11 then some 1
  else if t = 12 then some 3
  else if t = 13 then some 1
  else if t = 14 then some 1
  else if t = 15 then some 1
  else if t = 16 then some 4
  else if t = 17 then some 4
  else if t = 18 then some 5
  else if t = 19 then some 1
  else if t = 20 then some 1
  else if t = 21 then some 1
  else if t = 22 then some 9
  else if t = 23 then some 1
  else if t = 24 then some 1
  else if t = 25 then some 2
  else if t = 26 then some 2
  else if t = 27 then some 2
  else if t = 28 then some 2
  else if t = 29 then some 1
  else if t = 127 then some 4
  else none

/-- State of an `IEv1` object: the 1-byte `type` header field, the `len`
attribute (unset both on a freshly constructed TV IE and when
`TV_LEN_DICT.get` returned `None`), and `data`. -/
structure IEv1R where
  type : Nat
  len : Option Nat
  data : List Nat
  deriving DecidableEq, Repr

/-- `IEv1.unpack` (gtp_c.py lines 646-654) including the base
`Packet.unpack`: the 1-byte type header is required (`NeedData` otherwise)
and `data` starts as the rest of the buffer.  A TLV IE (high bit of the
type set) reads a 2-byte big-endian length (`struct.error` when fewer than
2 bytes remain) and truncates `data` to it; a TV IE looks the length up in
`TV_LEN_DICT` — when the type is absent, `self.len` is `None` and
`self.data[:None]` keeps every remaining byte. -/
def iev1Unpack (buf : List Nat) : Except CodecErr IEv1R :=
  if buf.length < 1 then .error .needData
  else
    if ((buf.getD 0 0) >>> 7) &&& 1 = 1 then
      if (buf.drop 1).length < 2 then .error .structError
      else
        .ok ⟨buf.getD 0 0, some (buf.getD 1 0 * 256 + buf.getD 2 0),
          ((buf.drop 1).drop 2).take (buf.getD 1 0 * 256 + buf.getD 2 0)⟩
    else
      match TV_LEN_DICT (buf.getD 0 0) with
      | some l => .ok ⟨buf.getD 0 0, some l, (buf.drop 1).take l⟩
      | none => .ok ⟨buf.getD 0 0, none, buf.drop 1⟩

/-- Claim C4 (refuted by the code): decoding a TV-form IE whose type code is
not in the static table does not fail.  `TV_LEN_DICT.get` returns `None`,
the slice `self.data[:None]` keeps all remaining bytes, and an IE value is
produced with `len` unset.  Type 0x1e (= 30) has the high bit clear and is
not in the table, yet the buffer `1e 00` decodes to an IE — not to the
decode error the claim (and the repo's own `test_iev1_unknown_tv_type`
test) expects. -/
theorem iev1_unknown_tv_type_no_error :
    ((0x1e : Nat) >>> 7) &&& 1 = 0 ∧ TV_LEN_DICT 0x1e = none ∧
      iev1Unpack [0x1e, 0x00] = .ok ⟨0x1e, none, [0x00]⟩ ∧
      ∀ e : CodecErr, iev1Unpack [0x1e, 0x00] ≠ .error e := by
  refine ⟨by decide, rfl, rfl, fun e h => ?_⟩
  rw [show iev1Unpack [0x1e, 0x00] = .ok ⟨0x1e, none, [0x00]⟩ from rfl] at h
  exact Except.noConfusion h

/-- State of an `IEv2` object: 1-byte type, 2-byte length, 1-byte flags
header fields plus `data`. -/
structure IEv2R where
  type : Nat
  len : Nat
  flags : Nat
  data : List Nat
  deriving DecidableEq, Repr

/-- `IEv2.cr_flag` getter (gtp_c.py lines 685-687). -/
def cr_flag (ie : IEv2R) : Nat := (ie.flags >>> 4) &&& 0xf

/-- `IEv2.cr_flag` setter (gtp_c.py lines 689-691): its body is `pass`. -/
def set_cr_flag (ie : IEv2R) (_c : Nat) : IEv2R := ie

/-- `IEv2.instance` getter (gtp_c.py lines 693-695). -/
def instance_id (ie : IEv2R) : Nat := ie.flags &&& 0xf

/-- `IEv2.instance` setter (gtp_c.py lines 697-699): its body is `pass`. -/
def set_instance_id (ie : IEv2R) (_c : Nat) : IEv2R := ie

/-- Claim C5 (refuted by the code): both IEv2 flag setters are `pass` and
store nothing.  Writing CR flag 3 (or instance 5) to an IE whose flags byte
is 0 leaves the object unchanged, and reading back returns 0, not the
written value — contradicting the claim and the repo's own
`test_iev2_cr_flag_setter` / `test_iev2_instance_setter` tests. -/
theorem iev2_flag_setters_are_noops :
    set_cr_flag ⟨1, 0, 0, [0]⟩ 3 = ⟨1, 0, 0, [0]⟩ ∧
      cr_flag (set_cr_flag ⟨1, 0, 0, [0]⟩ 3) = 0 ∧
      cr_flag (set_cr_flag ⟨1, 0, 0, [0]⟩ 3) ≠ 3 ∧
      set_instance_id ⟨1, 0, 0, [0]⟩ 5 = ⟨1, 0, 0, [0]⟩ ∧
      instance_id (set_instance_id ⟨1, 0, 0, [0]⟩ 5) = 0 ∧
      instance_id (set_instance_id ⟨1, 0, 0, [0]⟩ 5) ≠ 5 := by
  refine ⟨rfl, by decide, by decide, rfl, by decide, by decide⟩

/-! ## GTP-C headers (src/dpkt/gtp_c.py, `GTPv1C` / `GTPv2C`) -/

/-- Big-endian 4-byte encoding with the byte masks of
`struct.pack('4B', (t >> 24) & 0xff, ...)`; for values below 2^32 (which
`struct.pack('>I', ...)` enforces where the source uses it, via the range
checks at its call sites below) the masks are exact. -/
def be32 (n : Nat) : List Nat :=
  [(n >>> 24) &&& 255, (n >>> 16) &&& 255, (n >>> 8) &&& 255, n &&& 255]

/-- `IEv2.unpack` (gtp_c.py lines 701-703) with the base `Packet.unpack`:
a 4-byte header (type, big-endian length, flags), then `data` truncated to
`len` bytes. -/
def iev2Unpack (buf : List Nat) : Except CodecErr IEv2R :=
  if buf.length < 4 then .error .needData
  else
    .ok ⟨buf.getD 0 0, buf.getD 1 0 * 256 + buf.getD 2 0, buf.getD 3 0,
      (buf.drop 4).take (buf.getD 1 0 * 256 + buf.getD 2 0)⟩

/-- `IEv2.pack_hdr` (gtp_c.py lines 705-707): `self.len` is overwritten
with `len(self.data)` and the header is emitted (range checks are
`struct.pack`'s). -/
def iev2PackHdr (ie : IEv2R) : Except CodecErr (List Nat) :=
  if ie.type < 256 ∧ ie.data.length < 65536 ∧ ie.flags < 256 then
    .ok ([ie.type] ++ be16 ie.data.length ++ [ie.flags])
  else .error .structError

/-- `bytes(ie)` for an IEv2: packed header followed by `data`. -/
def iev2Bytes (ie : IEv2R) : Except CodecErr (List Nat) :=
  match iev2PackHdr ie with
  | .ok h => .ok (h ++ ie.data)
  | .error e => .error e

/-- `len(ie)` for an IEv2 (`Packet.__len__`): header length plus data. -/
def iev2Len (ie : IEv2R) : Nat := 4 + ie.data.length

/-- The IE loop of `GTPv2C.unpack` (gtp_c.py lines 590-595): decode one IE
from the front, advance by its framing length, stop when no bytes remain. -/
def parseIEv2s (bs : List Nat) : Except CodecErr (List IEv2R) :=
  if h : bs.isEmpty then .ok []
  else
    match iev2Unpack bs with
    | .error e => .error e
    | .ok ie =>
      match parseIEv2s (bs.drop (iev2Len ie)) with
      | .ok rest => .ok (ie :: rest)
      | .error e => .error e
termination_by bs.length
decreasing_by
  have hne : bs ≠ [] := by simpa using h
  have hpos : 0 < bs.length := List.length_pos.mpr hne
  simp only [List.length_drop, iev2Len]
  omega

/-- `b''.join(bytes(d) for d in l)` over IEv2 values. -/
def serIEv2List : List IEv2R → Except CodecErr (List Nat)
  | [] => .ok []
  | ie :: rest =>
    match iev2Bytes ie with
    | .error e => .error e
    | .ok b =>
      match serIEv2List rest with
      | .ok bs => .ok (b ++ bs)
      | .error e => .error e

/-- `IEv1.pack_hdr` (gtp_c.py lines 656-662): the 1-byte type, then for a
TLV IE (high bit set) the stored 2-byte `self.len`; reading an unset `len`
is an `AttributeError`. -/
def iev1PackHdr (ie : IEv1R) : Except CodecErr (List Nat) :=
  if ie.type < 256 then
    if (ie.type >>> 7) &&& 1 = 1 then
      match ie.len with
      | some l => if l < 65536 then .ok ([ie.type] ++ be16 l) else .error .structError
      | none => .error .attrError
    else .ok [ie.type]
  else .error .structError

/-- `bytes(ie)` for an IEv1: packed header followed by `data`. -/
def iev1Bytes (ie : IEv1R) : Except CodecErr (List Nat) :=
  match iev1PackHdr ie with
  | .ok h => .ok (h ++ ie.data)
  | .error e => .error e

/-- `b''.join(bytes(d) for d in l)` over IEv1 values. -/
def serIEv1List : List IEv1R → Except CodecErr (List Nat)
  | [] => .ok []
  | ie :: rest =>
    match iev1Bytes ie with
    | .error e => .error e
    | .ok b =>
      match serIEv1List rest with
      | .ok bs => .ok (b ++ bs)
      | .error e => .error e

/-- State of a `GTPv1C` object: the fixed header fields (flags, type, len,
teid) plus the attributes `seqnum`, `npdu`, `next_type` (ints on
construction and after unpack, byte strings after `pack_hdr`) and `data`. -/
structure GTPv1CR where
  flags : Nat
  type : Nat
  len : Nat
  teid : Nat
  seqnum : PyVal
  npdu : PyVal
  next_type : PyVal
  data : PyData IEv1R
  deriving DecidableEq, Repr

/-- `Packet.pack_hdr` for the GTPv1-C header format `>BBHI`. -/
def packetPackHdrV1 (m : GTPv1CR) : Except CodecErr (List Nat) :=
  if m.flags < 256 ∧ m.type < 256 ∧ m.len < 65536 ∧ m.teid < 4294967296 then
    .ok ([m.flags, m.type] ++ be16 m.len ++ be32 m.teid)
  else .error .structError

/-- `GTPv1C.pack_hdr` (gtp_c.py lines 498-520).  With a non-list `data` it
just packs the fixed header.  Otherwise the IE list is serialized, and when
the 3-bit additional-fields mask (`flags & 7`) is non-zero `seqnum`,
`npdu` and `next_type` are overwritten with their packed byte strings
(`TypeError` when one is not an int, with the assignments made so far
kept); with a zero mask they are overwritten with empty byte strings.
`data` is then replaced by the serialized body and `len` recomputed from
it.  Returns the packed fixed header together with the mutated object. -/
def gtpv1cPackHdr (m : GTPv1CR) : Except CodecErr (List Nat) × GTPv1CR :=
  match m.data with
  | .raw _ => (packetPackHdrV1 m, m)
  | .ies l =>
    match serIEv1List l with
    | .error e => (.error e, m)
    | .ok ser =>
      if m.flags &&& 7 ≠ 0 then
        match m.seqnum with
        | .int s =>
          let m1 := { m with seqnum := .bytes [(s >>> 8) &&& 255, s &&& 255] }
          match m.npdu with
          | .int np =>
            let m2 := { m1 with npdu := .bytes [np &&& 255] }
            match m.next_type with
            | .int nt =>
              let body := [(s >>> 8) &&& 255, s &&& 255] ++ [np &&& 255] ++
                [nt &&& 255] ++ ser
              let m3 := { m2 with
                next_type := .bytes [nt &&& 255]
                data := .raw body
                len := body.length }
              (packetPackHdrV1 m3, m3)
            | _ => (.error .typeError, m2)
          | _ => (.error .typeError, m1)
        | _ => (.error .typeError, m)
      else
        let m1 := { m with
          seqnum := .bytes []
          npdu := .bytes []
          next_type := .bytes []
          data := .raw ser
          len := ser.length }
        (packetPackHdrV1 m1, m1)

/-- State of a `GTPv2C` object: the fixed header fields (flags, type, len)
plus the attributes `teid`, `seqnum`, `priority` and `data`.  `teid` and
`priority` are only assigned when the TEID flag is set. -/
structure GTPv2CR where
  flags : Nat
  type : Nat
  len : Nat
  teid : PyVal
  seqnum : PyVal
  priority : PyVal
  data : PyData IEv2R
  deriving DecidableEq, Repr

/-- `Packet.pack_hdr` for the GTPv2-C header format `>BBH`. -/
def packetPackHdrV2 (m : GTPv2CR) : Except CodecErr (List Nat) :=
  if m.flags < 256 ∧ m.type < 256 ∧ m.len < 65536 then
    .ok ([m.flags, m.type] ++ be16 m.len)
  else .error .structError

/-- `GTPv2C.unpack` (gtp_c.py lines 569-595) with the base `Packet.unpack`:
the 4-byte fixed header is required, the rest is the payload.  With the
TEID flag set, the payload's first 8 bytes become the 32-bit `teid`, 24-bit
`seqnum` and the priority nibble (`IndexError` when fewer than 8 bytes are
present), and IE parsing starts after byte 8.  With the flag clear,
`seqnum` is bound to the raw 3-byte slice `data[:3]` and IE parsing starts
after `data[5:]` — five bytes in, not four. -/
def gtpv2cUnpack (buf : List Nat) : Except CodecErr GTPv2CR :=
  if buf.length < 4 then .error .needData
  else
    if ((buf.getD 0 0) >>> 3) &&& 1 ≠ 0 then
      if (buf.drop 4).length < 8 then .error .indexError
      else
        match parseIEv2s ((buf.drop 4).drop 8) with
        | .error e => .error e
        | .ok l =>
          .ok ⟨buf.getD 0 0, buf.getD 1 0, buf.getD 2 0 * 256 + buf.getD 3 0,
            .int ((((buf.drop 4).getD 0 0) <<< 24) ||| (((buf.drop 4).getD 1 0) <<< 16) |||
              (((buf.drop 4).getD 2 0) <<< 8) ||| ((buf.drop 4).getD 3 0)),
            .int ((((buf.drop 4).getD 4 0) <<< 16) ||| (((buf.drop 4).getD 5 0) <<< 8) |||
              ((buf.drop 4).getD 6 0)),
            .int ((((buf.drop 4).getD 7 0) >>> 4) &&& 0xf), .ies l⟩
    else
      match parseIEv2s ((buf.drop 4).drop 5) with
      | .error e => .error e
      | .ok l =>
        .ok ⟨buf.getD 0 0, buf.getD 1 0, buf.getD 2 0 * 256 + buf.getD 3 0,
          .none, .bytes ((buf.drop 4).take 3), .none, .ies l⟩

/-- `GTPv2C.pack_hdr` (gtp_c.py lines 597-621).  With a non-list `data` it
just packs the fixed header.  Otherwise the IE list is serialized, `seqnum`
is overwritten with its packed 3-byte string (`TypeError` if not an int),
a zero spare byte is appended, and with the TEID flag set `teid` is
likewise overwritten with its packed 4-byte string and prepended.  `data`
is replaced by the assembled body and `len` recomputed from it. -/
def gtpv2cPackHdr (m : GTPv2CR) : Except CodecErr (List Nat) × GTPv2CR :=
  match m.data with
  | .raw _ => (packetPackHdrV2 m, m)
  | .ies l =>
    match serIEv2List l with
    | .error e => (.error e, m)
    | .ok ser =>
      match m.seqnum with
      | .int s =>
        let seqb := [(s >>> 16) &&& 255, (s >>> 8) &&& 255, s &&& 255]
        let m1 := { m with seqnum := .bytes seqb }
        if (m.flags >>> 3) &&& 1 ≠ 0 then
          match m.teid with
          | .int t =>
            let body := be32 t ++ (seqb ++ [0] ++ ser)
            let m2 := { m1 with
              teid := .bytes (be32 t)
              data := .raw body
              len := body.length }
            (packetPackHdrV2 m2, m2)
          | _ => (.error .typeError, m1)
        else
          let body := seqb ++ [0] ++ ser
          let m2 := { m1 with
            data := .raw body
            len := body.length }
          (packetPackHdrV2 m2, m2)
      | _ => (.error .typeError, m)

/-- Claim C2 (code bug, contradicted by the repo's own round-trip tests):
with the TEID-present flag clear, `GTPv2C.pack_hdr` writes exactly 4 bytes
(3-byte seqnum plus a zero spare) before the IEs, but `GTPv2C.unpack`
discards five payload bytes (`self.data[5:]`, after binding `seqnum` to the
raw slice `data[:3]`), so decode eats the first IE byte and does not mirror
encode.  Concretely: packing a no-TEID message with the single IE
`type 3, value 05` produces the body `00 00 01 00 | 03 00 01 00 05`, while
unpacking the corresponding wire message yields the IE list
`[type 0, len 256, flags 5, value empty]` instead of the original IE. -/
theorem gtpv2c_no_teid_decode_skips_five :
    (gtpv2cPackHdr ⟨0x40, 1, 0, .none, .int 1, .none, .ies [⟨3, 0, 0, [5]⟩]⟩).2.data
        = .raw ([0, 0, 1, 0] ++ [3, 0, 1, 0, 5]) ∧
    (gtpv2cPackHdr ⟨0x40, 1, 0, .none, .int 1, .none, .ies [⟨3, 0, 0, [5]⟩]⟩).1
        = .ok [0x40, 1, 0, 9] ∧
    gtpv2cUnpack ([0x40, 1, 0, 9] ++ ([0, 0, 1, 0] ++ [3, 0, 1, 0, 5]))
        = .ok ⟨0x40, 1, 9, .none, .bytes [0, 0, 1], .none, .ies [⟨0, 256, 5, []⟩]⟩ ∧
    [(⟨0, 256, 5, []⟩ : IEv2R)] ≠ [⟨3, 0, 0, [5]⟩] := by
  refine ⟨rfl, rfl, ?_, by decide⟩
  simp [gtpv2cUnpack, parseIEv2s, iev2Unpack, iev2Len]

/-- Claim C10: encoding a GTP-C message mutates it.  For a GTPv1-C message
with a non-zero additional-fields mask, `pack_hdr` overwrites `seqnum`,
`npdu` and `next_type` with their packed byte strings and replaces `data`
(the IE list) with the serialized body bytes; for a GTPv2-C message with
the TEID flag set it likewise overwrites `seqnum` and `teid` and replaces
`data`.  Afterwards the integer field values and the structured IE list are
no longer stored on the object. -/
theorem gtp_pack_hdr_overwrites_fields
    (f1 t1 teid1 s np nt : Nat) (l1 : List IEv1R) (ser1 : List Nat)
    (hadd : f1 &&& 7 ≠ 0) (hser1 : serIEv1List l1 = .ok ser1)
    (f2 t2 teid2 s2 : Nat) (l2 : List IEv2R) (ser2 : List Nat)
    (ht : (f2 >>> 3) &&& 1 ≠ 0) (hser2 : serIEv2List l2 = .ok ser2) :
    ((gtpv1cPackHdr ⟨f1, t1, 0, teid1, .int s, .int np, .int nt, .ies l1⟩).2 =
        ⟨f1, t1,
          ([(s >>> 8) &&& 255, s &&& 255] ++ [np &&& 255] ++ [nt &&& 255] ++ ser1).length,
          teid1, .bytes [(s >>> 8) &&& 255, s &&& 255], .bytes [np &&& 255],
          .bytes [nt &&& 255],
          .raw ([(s >>> 8) &&& 255, s &&& 255] ++ [np &&& 255] ++ [nt &&& 255] ++ ser1)⟩) ∧
    PyVal.bytes [(s >>> 8) &&& 255, s &&& 255] ≠ .int s ∧
    (PyData.raw ([(s >>> 8) &&& 255, s &&& 255] ++ [np &&& 255] ++ [nt &&& 255] ++ ser1) :
        PyData IEv1R) ≠ .ies l1 ∧
    ((gtpv2cPackHdr ⟨f2, t2, 0, .int teid2, .int s2, .none, .ies l2⟩).2 =
        ⟨f2, t2, (be32 teid2 ++ ([(s2 >>> 16) &&& 255, (s2 >>> 8) &&& 255, s2 &&& 255] ++ [0] ++ ser2)).length,
          .bytes (be32 teid2),
          .bytes [(s2 >>> 16) &&& 255, (s2 >>> 8) &&& 255, s2 &&& 255], .none,
          .raw (be32 teid2 ++ ([(s2 >>> 16) &&& 255, (s2 >>> 8) &&& 255, s2 &&& 255] ++ [0] ++ ser2))⟩) ∧
    PyVal.bytes (be32 teid2) ≠ .int teid2 ∧
    (PyData.raw (be32 teid2 ++ ([(s2 >>> 16) &&& 255, (s2 >>> 8) &&& 255, s2 &&& 255] ++ [0] ++ ser2)) :
        PyData IEv2R) ≠ .ies l2 := by
  refine ⟨?_, by simp, by simp, ?_, by simp, by simp⟩
  · simp only [gtpv1cPackHdr, hser1, if_pos hadd]
  · simp only [gtpv2cPackHdr, hser2, if_pos ht]

/-- Witness for C10: a v1 message with flags 0x32 (s-flag set) and a v2
message with flags 0x48 (TEID flag set), both with an empty IE list. -/
theorem gtp_pack_hdr_overwrites_fields_witness :
    ((0x32 : Nat) &&& 7 ≠ 0 ∧ serIEv1List [] = .ok [] ∧
      ((0x48 : Nat) >>> 3) &&& 1 ≠ 0 ∧ serIEv2List [] = .ok []) ∧
    ((gtpv1cPackHdr ⟨0x32, 16, 0, 0x10, .int 10, .int 0xca, .int 0xfe, .ies []⟩).2 =
        ⟨0x32, 16,
          ([(10 >>> 8) &&& 255, 10 &&& 255] ++ [0xca &&& 255] ++ [0xfe &&& 255] ++ []).length,
          0x10, .bytes [(10 >>> 8) &&& 255, 10 &&& 255], .bytes [0xca &&& 255],
          .bytes [0xfe &&& 255],
          .raw ([(10 >>> 8) &&& 255, 10 &&& 255] ++ [0xca &&& 255] ++ [0xfe &&& 255] ++ [])⟩ ∧
      PyVal.bytes [(10 >>> 8) &&& 255, 10 &&& 255] ≠ .int 10 ∧
      (PyData.raw ([(10 >>> 8) &&& 255, 10 &&& 255] ++ [0xca &&& 255] ++ [0xfe &&& 255] ++ []) :
          PyData IEv1R) ≠ .ies [] ∧
      (gtpv2cPackHdr ⟨0x48, 32, 0, .int 0x10, .int 0x01000a, .none, .ies []⟩).2 =
        ⟨0x48, 32, (be32 0x10 ++ ([(0x01000a >>> 16) &&& 255, (0x01000a >>> 8) &&& 255, 0x01000a &&& 255] ++ [0] ++ [])).length,
          .bytes (be32 0x10),
          .bytes [(0x01000a >>> 16) &&& 255, (0x01000a >>> 8) &&& 255, 0x01000a &&& 255], .none,
          .raw (be32 0x10 ++ ([(0x01000a >>> 16) &&& 255, (0x01000a >>> 8) &&& 255, 0x01000a &&& 255] ++ [0] ++ []))⟩ ∧
      PyVal.bytes (be32 0x10) ≠ .int 0x10 ∧
      (PyData.raw (be32 0x10 ++ ([(0x01000a >>> 16) &&& 255, (0x01000a >>> 8) &&& 255, 0x01000a &&& 255] ++ [0] ++ [])) :
          PyData IEv2R) ≠ .ies []) :=
  ⟨⟨by decide, rfl, by decide, rfl⟩,
    gtp_pack_hdr_overwrites_fields 0x32 16 0x10 10 0xca 0xfe [] [] (by decide) rfl
      0x48 32 0x10 0x01000a [] [] (by decide) rfl⟩

/-! ## DNS message encoding (src/dpkt/dns.py, `DNS.__bytes__`) -/

/-- A DNS question: name, type, class. -/
structure DnsQ where
  name : List Nat
  type : Nat
  cls : Nat
  deriving DecidableEq, Repr

/-- A DNS resource record with every attribute `pack_rdata` may read.  The
source stores these as dynamic Python attributes, present only when
assigned; the per-type dispatch reads exactly the ones its record type
uses, so unused fields are inert here. -/
structure DnsRR where
  name : List Nat
  type : Nat
  cls : Nat
  ttl : Nat
  rdata : List Nat
  ip : List Nat
  nsname : List Nat
  cname : List Nat
  ptrname : List Nat
  mname : List Nat
  rname : List Nat
  serial : Nat
  refresh : Nat
  retry : Nat
  expire : Nat
  minimum : Nat
  preference : Nat
  mxname : List Nat
  text : List (List Nat)
  ip6 : List Nat
  priority : Nat
  weight : Nat
  port : Nat
  srvname : List Nat
  deriving DecidableEq, Repr

/-- `RR.pack_rdata` (dns.py lines 256-289): a non-empty stored `rdata` wins;
otherwise dispatch on the record type (A 1, NS 2, CNAME 5, PTR 12, SOA 6,
MX 15, TXT 16 / HINFO 13, AAAA 28, SRV 33, OPT 41), threading the
compression table through every `pack_name` call; any other type is a
`PackError`.  The TXT/HINFO branch emits the length-prefixed text segments
(the source line writes them with a Python-2-era `'%s%s' % (chr(len(x)), x)`
format). -/
def packRdata (rr : DnsRR) (off : Nat) (tbl : LabelTable) :
    Except CodecErr (List Nat × LabelTable) :=
  if rr.rdata ≠ [] then .ok (rr.rdata, tbl)
  else if rr.type = 1 then .ok (rr.ip, tbl)
  else if rr.type = 2 then pack_name rr.nsname off tbl
  else if rr.type = 5 then pack_name rr.cname off tbl
  else if rr.type = 12 then pack_name rr.ptrname off tbl
  else if rr.type = 6 then
    match pack_name rr.mname off tbl with
    | .error e => .error e
    | .ok (mb, t1) =>
      match pack_name rr.rname (off + mb.length) t1 with
      | .error e => .error e
      | .ok (rb, t2) =>
        if rr.serial < 4294967296 ∧ rr.refresh < 4294967296 ∧ rr.retry < 4294967296 ∧
            rr.expire < 4294967296 ∧ rr.minimum < 4294967296 then
          .ok (mb ++ rb ++ be32 rr.serial ++ be32 rr.refresh ++ be32 rr.retry ++
            be32 rr.expire ++ be32 rr.minimum, t2)
        else .error .structError
  else if rr.type = 15 then
    if rr.preference < 65536 then
      match pack_name rr.mxname (off + 2) tbl with
      | .error e => .error e
      | .ok (xb, t1) => .ok (be16 rr.preference ++ xb, t1)
    else .error .structError
  else if rr.type = 16 ∨ rr.type = 13 then
    .ok ((rr.text.map (fun x => x.length :: x)).flatten, tbl)
  else if rr.type = 28 then .ok (rr.ip6, tbl)
  else if rr.type = 33 then
    if rr.priority < 65536 ∧ rr.weight < 65536 ∧ rr.port < 65536 then
      match pack_name rr.srvname (off + 6) tbl with
      | .error e => .error e
      | .ok (xb, t1) => .ok (be16 rr.priority ++ be16 rr.weight ++ be16 rr.port ++ xb, t1)
    else .error .structError
  else if rr.type = 41 then .ok ([], tbl)
  else .error .unsupported

/-- `DNS.pack_q` (dns.py lines 327-329): append the compressed name (base
offset `len(buf)`) and the 2-byte type and class. -/
def packQ (buf : List Nat) (tbl : LabelTable) (q : DnsQ) :
    Except CodecErr (List Nat × LabelTable) :=
  match pack_name q.name buf.length tbl with
  | .error e => .error e
  | .ok (nb, t1) =>
    if q.type < 65536 ∧ q.cls < 65536 then
      .ok (buf ++ nb ++ be16 q.type ++ be16 q.cls, t1)
    else .error .structError

def packQList : List DnsQ → List Nat → LabelTable →
    Except CodecErr (List Nat × LabelTable)
  | [], buf, tbl => .ok (buf, tbl)
  | q :: qs, buf, tbl =>
    match packQ buf tbl q with
    | .error e => .error e
    | .ok (b, t) => packQList qs b t

/-- `DNS.pack_rr` (dns.py lines 339-343): compressed name, rdata packed at
base offset `len(buf) + len(name) + 10`, then type, class, ttl, rdata
length, rdata. -/
def packRR (buf : List Nat) (tbl : LabelTable) (rr : DnsRR) :
    Except CodecErr (List Nat × LabelTable) :=
  match pack_name rr.name buf.length tbl with
  | .error e => .error e
  | .ok (nb, t1) =>
    match packRdata rr (buf.length + nb.length + 10) t1 with
    | .error e => .error e
    | .ok (rd, t2) =>
      if rr.type < 65536 ∧ rr.cls < 65536 ∧ rr.ttl < 4294967296 ∧ rd.length < 65536 then
        .ok (buf ++ nb ++ be16 rr.type ++ be16 rr.cls ++ be32 rr.ttl ++
          be16 rd.length ++ rd, t2)
      else .error .structError

def packRRList : List DnsRR → List Nat → LabelTable →
    Except CodecErr (List Nat × LabelTable)
  | [], buf, tbl => .ok (buf, tbl)
  | rr :: rrs, buf, tbl =>
    match packRR buf tbl rr with
    | .error e => .error e
    | .ok (b, t) => packRRList rrs b t

/-- State of a `DNS` object ready for encoding: header id and flag word,
and the four section lists (after decode, or as constructed, the count
header fields hold these lists themselves). -/
structure DNSR where
  id : Nat
  op : Nat
  qd : List DnsQ
  an : List DnsRR
  ns : List DnsRR
  ar : List DnsRR
  deriving DecidableEq, Repr

/-- `DNS.__bytes__` (dns.py lines 377-388): a fresh empty compression table,
the header packed with `len(self.qd)`, `len(self.an)`, `len(self.ns)`,
`len(self.ar)` as the four counts, then the questions and the three RR
sections in order, threading the buffer and table. -/
def dnsBytes (d : DNSR) : Except CodecErr (List Nat) :=
  if d.id < 65536 ∧ d.op < 65536 ∧ d.qd.length < 65536 ∧ d.an.length < 65536 ∧
      d.ns.length < 65536 ∧ d.ar.length < 65536 then
    match packQList d.qd
        (be16 d.id ++ be16 d.op ++ be16 d.qd.length ++ be16 d.an.length ++
          be16 d.ns.length ++ be16 d.ar.length) [] with
    | .error e => .error e
    | .ok (b1, t1) =>
      match packRRList d.an b1 t1 with
      | .error e => .error e
      | .ok (b2, t2) =>
        match packRRList d.ns b2 t2 with
        | .error e => .error e
        | .ok (b3, t3) =>
          match packRRList d.ar b3 t3 with
          | .error e => .error e
          | .ok (b4, _) => .ok b4
  else .error .structError

theorem packQ_grows (buf : List Nat) (tbl : LabelTable) (q : DnsQ)
    (b : List Nat) (t : LabelTable) (h : packQ buf tbl q = .ok (b, t)) :
    ∃ suf, b = buf ++ suf := by
  unfold packQ at h
  split at h
  · exact absurd h (by simp)
  · next nb t1 heq =>
    split at h
    · rw [Except.ok.injEq, Prod.mk.injEq] at h
      exact ⟨nb ++ (be16 q.type ++ be16 q.cls), by rw [← h.1]; simp⟩
    · exact absurd h (by simp)

theorem packQList_grows (qs : List DnsQ) :
    ∀ (buf : List Nat) (tbl : LabelTable) (b : List Nat) (t : LabelTable),
      packQList qs buf tbl = .ok (b, t) → ∃ suf, b = buf ++ suf := by
  induction qs with
  | nil =>
    intro buf tbl b t h
    rw [packQList, Except.ok.injEq, Prod.mk.injEq] at h
    exact ⟨[], by rw [← h.1]; simp⟩
  | cons q qs ih =>
    intro buf tbl b t h
    rw [packQList] at h
    split at h
    · exact absurd h (by simp)
    · next b1 t1 heq =>
      obtain ⟨s1, hs1⟩ := packQ_grows buf tbl q b1 t1 heq
      obtain ⟨s2, hs2⟩ := ih b1 t1 b t h
      exact ⟨s1 ++ s2, by rw [hs2, hs1]; simp⟩

theorem packRR_grows (buf : List Nat) (tbl : LabelTable) (rr : DnsRR)
    (b : List Nat) (t : LabelTable) (h : packRR buf tbl rr = .ok (b, t)) :
    ∃ suf, b = buf ++ suf := by
  unfold packRR at h
  split at h
  · exact absurd h (by simp)
  · next nb t1 heq1 =>
    split at h
    · exact absurd h (by simp)
    · next rd t2 heq2 =>
      split at h
      · rw [Except.ok.injEq, Prod.mk.injEq] at h
        exact ⟨nb ++ (be16 rr.type ++ (be16 rr.cls ++ (be32 rr.ttl ++
          (be16 rd.length ++ rd)))), by rw [← h.1]; simp⟩
      · exact absurd h (by simp)

theorem packRRList_grows (rrs : List DnsRR) :
    ∀ (buf : List Nat) (tbl : LabelTable) (b : List Nat) (t : LabelTable),
      packRRList rrs buf tbl = .ok (b, t) → ∃ suf, b = buf ++ suf := by
  induction rrs with
  | nil =>
    intro buf tbl b t h
    rw [packRRList, Except.ok.injEq, Prod.mk.injEq] at h
    exact ⟨[], by rw [← h.1]; simp⟩
  | cons rr rrs ih =>
    intro buf tbl b t h
    rw [packRRList] at h
    split at h
    · exact absurd h (by simp)
    · next b1 t1 heq =>
      obtain ⟨s1, hs1⟩ := packRR_grows buf tbl rr b1 t1 heq
      obtain ⟨s2, hs2⟩ := ih b1 t1 b t h
      exact ⟨s1 ++ s2, by rw [hs2, hs1]; simp⟩

/-- Claim C9: count and length fields are derived from the actual contents
at encode time: the four count words in the first 12 bytes of an encoded
DNS message are the lengths of the current `qd`/`an`/`ns`/`ar` lists, and
the 2-byte length field of an encoded IEv2 header is the length of the IE's
current value bytes (whatever its stored `len` field was). -/
theorem encode_counts_derived (d : DNSR) (out : List Nat)
    (hd : dnsBytes d = .ok out) (ie : IEv2R) (out2 : List Nat)
    (hie : iev2PackHdr ie = .ok out2) :
    out.take 12 = be16 d.id ++ be16 d.op ++ be16 d.qd.length ++
      be16 d.an.length ++ be16 d.ns.length ++ be16 d.ar.length ∧
    out2.getD 1 0 * 256 + out2.getD 2 0 = ie.data.length := by
  constructor
  · unfold dnsBytes at hd
    split at hd
    · split at hd
      · exact absurd hd (by simp)
      · next b1 t1 h1 =>
        split at hd
        · exact absurd hd (by simp)
        · next b2 t2 h2 =>
          split at hd
          · exact absurd hd (by simp)
          · next b3 t3 h3 =>
            split at hd
            · exact absurd hd (by simp)
            · next b4 t4 h4 =>
              rw [Except.ok.injEq] at hd
              obtain ⟨s1, hs1⟩ := packQList_grows d.qd _ _ b1 t1 h1
              obtain ⟨s2, hs2⟩ := packRRList_grows d.an b1 t1 b2 t2 h2
              obtain ⟨s3, hs3⟩ := packRRList_grows d.ns b2 t2 b3 t3 h3
              obtain ⟨s4, hs4⟩ := packRRList_grows d.ar b3 t3 b4 t4 h4
              rw [← hd, hs4, hs3, hs2, hs1]
              have hlen : (be16 d.id ++ be16 d.op ++ be16 d.qd.length ++
                  be16 d.an.length ++ be16 d.ns.length ++ be16 d.ar.length).length = 12 := by
                simp [be16]
              rw [List.append_assoc, List.append_assoc, List.append_assoc,
                show (12 : Nat) = (be16 d.id ++ be16 d.op ++ be16 d.qd.length ++
                  be16 d.an.length ++ be16 d.ns.length ++ be16 d.ar.length).length
                  from hlen.symm,
                List.take_left]
    · exact absurd hd (by simp)
  · unfold iev2PackHdr at hie
    split at hie
    · next hrange =>
      rw [Except.ok.injEq] at hie
      rw [← hie]
      simp [be16]
      omega
    · exact absurd hie (by simp)

/-- Witness for C9: an empty DNS message (id 0, flags 0x100) encodes with
all four counts 0, and an IEv2 whose stored `len` is 7 but whose value is
one byte long emits length field 1. -/
theorem encode_counts_derived_witness :
    (dnsBytes ⟨0, 256, [], [], [], []⟩ = .ok [0, 0, 1, 0, 0, 0, 0, 0, 0, 0, 0, 0] ∧
      iev2PackHdr ⟨1, 7, 0, [9]⟩ = .ok [1, 0, 1, 0]) ∧
    ([0, 0, 1, 0, 0, 0, 0, 0, 0, 0, 0, 0].take 12 =
        be16 0 ++ be16 256 ++ be16 ([] : List DnsQ).length ++
          be16 ([] : List DnsRR).length ++ be16 ([] : List DnsRR).length ++
          be16 ([] : List DnsRR).length ∧
      [1, 0, 1, 0].getD 1 0 * 256 + [1, 0, 1, 0].getD 2 0 = [9].length) :=
  ⟨⟨rfl, rfl⟩,
    encode_counts_derived ⟨0, 256, [], [], [], []⟩
      [0, 0, 1, 0, 0, 0, 0, 0, 0, 0, 0, 0] rfl ⟨1, 7, 0, [9]⟩ [1, 0, 1, 0] rfl⟩

/-! ## F-TEID sub-codec

`encode_fteid`, `decode_fteid` and the `FTEID_*` interface-type constants
are exported by `dpkt.gtp_c` (they are imported from it by
`gtpc_factory.py` and `test_gtp_c.py`), but their definitions are not among
the provided sources.  The two functions below are therefore modelled from
the spec, §4.7. -/

/-- The decoded F-TEID value: interface-type code, TEID, optional raw
4-byte IPv4 and 16-byte IPv6 addresses. -/
structure FteidR where
  interfaceType : Nat
  teid : Nat
  ipv4 : Option (List Nat)
  ipv6 : Option (List Nat)
  deriving DecidableEq, Repr

/-- Modelled from the spec: `encode_fteid` (missing from src; spec §4.7).
One flags byte — bit 7 IPv4-present, bit 6 IPv6-present, bits 5-0 the
interface type — then the 4-byte big-endian TEID, then the optional 4-byte
IPv4 and 16-byte IPv6 addresses in that fixed order.  Encoding fails with a
value error when neither address is supplied. -/
def encode_fteid (teid ifaceType : Nat) (ipv4 ipv6 : Option (List Nat)) :
    Except CodecErr (List Nat) :=
  match ipv4, ipv6 with
  | Option.none, Option.none => .error .valueError
  | _, _ =>
    if teid < 4294967296 then
      .ok ([(if ipv4.isSome then 128 else 0) + (if ipv6.isSome then 64 else 0) +
            ifaceType % 64] ++
        [teid / 16777216 % 256, teid / 65536 % 256, teid / 256 % 256, teid % 256] ++
        ipv4.getD [] ++ ipv6.getD [])
    else .error .structError

/-- Modelled from the spec: `decode_fteid` (missing from src; spec §4.7).
Fails with a decode error when fewer than 5 bytes are present, or when an
address family flagged present in the leading flags byte does not have its
full 4 (IPv4) or 16 (IPv6) bytes in the remaining buffer. -/
def decode_fteid (buf : List Nat) : Except CodecErr FteidR :=
  if buf.length < 5 then .error .truncated
  else
    if buf.getD 0 0 / 128 % 2 ≠ 0 then
      if (buf.drop 5).length < 4 then .error .truncated
      else
        if buf.getD 0 0 / 64 % 2 ≠ 0 then
          if ((buf.drop 5).drop 4).length < 16 then .error .truncated
          else
            .ok ⟨buf.getD 0 0 % 64,
              buf.getD 1 0 * 16777216 + buf.getD 2 0 * 65536 +
                buf.getD 3 0 * 256 + buf.getD 4 0,
              some ((buf.drop 5).take 4), some (((buf.drop 5).drop 4).take 16)⟩
        else
          .ok ⟨buf.getD 0 0 % 64,
            buf.getD 1 0 * 16777216 + buf.getD 2 0 * 65536 +
              buf.getD 3 0 * 256 + buf.getD 4 0,
            some ((buf.drop 5).take 4), none⟩
    else
      if buf.getD 0 0 / 64 % 2 ≠ 0 then
        if (buf.drop 5).length < 16 then .error .truncated
        else
          .ok ⟨buf.getD 0 0 % 64,
            buf.getD 1 0 * 16777216 + buf.getD 2 0 * 65536 +
              buf.getD 3 0 * 256 + buf.getD 4 0,
            none, some ((buf.drop 5).take 16)⟩
      else
        .ok ⟨buf.getD 0 0 % 64,
          buf.getD 1 0 * 16777216 + buf.getD 2 0 * 65536 +
            buf.getD 3 0 * 256 + buf.getD 4 0,
          none, none⟩

/-- Claim C8: F-TEID encoding fails with a value error when neither address
is supplied; decoding fails with a decode error on fewer than 5 bytes, or
when a flagged address family's bytes are not fully present; and a value
encoded with only an IPv4 address decodes back to exactly the original
TEID, interface type and IPv4 address with no IPv6 field present. -/
theorem fteid_errors_and_roundtrip (teid iface : Nat) (ip4 : List Nat)
    (hteid : teid < 4294967296) (hiface : iface < 64) (hip4 : ip4.length = 4) :
    encode_fteid teid iface Option.none Option.none = .error .valueError ∧
    (∀ buf : List Nat, buf.length < 5 → decode_fteid buf = .error .truncated) ∧
    decode_fteid [0x80 + 10, 0, 0, 0x12, 0x34, 1, 2] = .error .truncated ∧
    encode_fteid teid iface (some ip4) Option.none =
      .ok ([128 + iface % 64] ++
        [teid / 16777216 % 256, teid / 65536 % 256, teid / 256 % 256, teid % 256] ++ ip4) ∧
    decode_fteid ([128 + iface % 64] ++
        [teid / 16777216 % 256, teid / 65536 % 256, teid / 256 % 256, teid % 256] ++ ip4) =
      .ok ⟨iface, teid, some ip4, Option.none⟩ := by
  refine ⟨rfl, ?_, rfl, ?_, ?_⟩
  · intro buf h
    unfold decode_fteid
    rw [if_pos h]
  · unfold encode_fteid
    rw [if_pos hteid]
    simp
  · unfold decode_fteid
    rw [if_neg (by simp)]
    have h0 : ([128 + iface % 64] ++
        [teid / 16777216 % 256, teid / 65536 % 256, teid / 256 % 256, teid % 256] ++
        ip4).getD 0 0 = 128 + iface % 64 := rfl
    have hdrop : ([128 + iface % 64] ++
        [teid / 16777216 % 256, teid / 65536 % 256, teid / 256 % 256, teid % 256] ++
        ip4).drop 5 = ip4 := by simp
    rw [h0, hdrop]
    rw [if_pos (by omega), if_neg (by omega), if_neg (by omega)]
    have h1 : ([128 + iface % 64] ++
        [teid / 16777216 % 256, teid / 65536 % 256, teid / 256 % 256, teid % 256] ++
        ip4).getD 1 0 = teid / 16777216 % 256 := rfl
    have h2 : ([128 + iface % 64] ++
        [teid / 16777216 % 256, teid / 65536 % 256, teid / 256 % 256, teid % 256] ++
        ip4).getD 2 0 = teid / 65536 % 256 := rfl
    have h3 : ([128 + iface % 64] ++
        [teid / 16777216 % 256, teid / 65536 % 256, teid / 256 % 256, teid % 256] ++
        ip4).getD 3 0 = teid / 256 % 256 := rfl
    have h4 : ([128 + iface % 64] ++
        [teid / 16777216 % 256, teid / 65536 % 256, teid / 256 % 256, teid % 256] ++
        ip4).getD 4 0 = teid % 256 := rfl
    rw [h1, h2, h3, h4]
    have htk : ip4.take 4 = ip4 := by
      rw [← hip4, List.take_length]
    rw [htk]
    have : (128 + iface % 64) % 64 = iface := by omega
    rw [this]
    have : teid / 16777216 % 256 * 16777216 + teid / 65536 % 256 * 65536 +
        teid / 256 % 256 * 256 + teid % 256 = teid := by omega
    rw [this]

/-- Witness for C8 at TEID 0xDEADBEEF, interface type 10 and IPv4 address
10.0.0.1. -/
theorem fteid_errors_and_roundtrip_witness :
    (0xDEADBEEF < 4294967296 ∧ (10 : Nat) < 64 ∧ ([10, 0, 0, 1] : List Nat).length = 4) ∧
    (encode_fteid 0xDEADBEEF 10 Option.none Option.none = .error .valueError ∧
      (∀ buf : List Nat, buf.length < 5 → decode_fteid buf = .error .truncated) ∧
      decode_fteid [0x80 + 10, 0, 0, 0x12, 0x34, 1, 2] = .error .truncated ∧
      encode_fteid 0xDEADBEEF 10 (some [10, 0, 0, 1]) Option.none =
        .ok ([128 + 10 % 64] ++
          [0xDEADBEEF / 16777216 % 256, 0xDEADBEEF / 65536 % 256,
            0xDEADBEEF / 256 % 256, 0xDEADBEEF % 256] ++ [10, 0, 0, 1]) ∧
      decode_fteid ([128 + 10 % 64] ++
          [0xDEADBEEF / 16777216 % 256, 0xDEADBEEF / 65536 % 256,
            0xDEADBEEF / 256 % 256, 0xDEADBEEF % 256] ++ [10, 0, 0, 1]) =
        .ok ⟨10, 0xDEADBEEF, some [10, 0, 0, 1], Option.none⟩) :=
  ⟨⟨by decide, by decide, by decide⟩,
    fteid_errors_and_roundtrip 0xDEADBEEF 10 [10, 0, 0, 1]
      (by decide) (by decide) (by decide)⟩

end DpktGtpc
